import Mathlib

/-!
Verification of the reconciliation-and-execution core of the
hyperliquid-perps-automation trading bot (`src/server.ts`).

The TypeScript source is shallowly embedded here:

* JS numbers are idealised as rationals (`ℚ`); `Math.round` is the
  round-half-toward-plus-infinity function `jsRound`.
* The asynchronous exchange collaborator is an explicit environment: a
  function from the attempt counter to the market price fetched on that
  attempt and the outcome of the `placeOrder` call on that attempt
  (a per-leg status list, a response without statuses, or a raised error).
* Every exchange interaction, sleep and Discord notification is recorded
  as an event in an execution trace; a thrown JS exception is an
  `Except.error` carrying the message.
* JS string helpers used by the source (`split('_')[0]`, `toUpperCase`,
  single-occurrence `replace`) are modelled by structurally recursive
  char-list functions so that concrete runs evaluate inside the kernel.
-/

namespace HyperliquidBot

/-- Replace the first occurrence of `pat` in a char list (JS
`String.prototype.replace` with a string pattern replaces only the first
occurrence). -/
def replaceFirst : List Char → List Char → List Char → List Char
  | [], _, _ => []
  | c :: rest, pat, repl =>
    if pat.isPrefixOf (c :: rest) then repl ++ (c :: rest).drop pat.length
    else c :: replaceFirst rest pat repl

/-- JS `s.replace(pat, repl)` for string patterns: first occurrence only. -/
def jsReplace (s pat repl : String) : String :=
  String.mk (replaceFirst s.data pat.data repl.data)

/-- JS `s.split(sep)[0]`: the segment before the first separator. -/
def splitHead (s : String) (sep : Char) : String :=
  String.mk (s.data.takeWhile (fun c => c ≠ sep))

/-- JS `s.toUpperCase()` (ASCII, which is all the bot feeds it). -/
def jsToUpper (s : String) : String := String.mk (s.data.map Char.toUpper)

/-- Whether `pat` occurs as a substring of `s` (used to state what an error
message does or does not mention). -/
def containsSubstrAux : List Char → List Char → Bool
  | [], pat => pat.isEmpty
  | c :: rest, pat => pat.isPrefixOf (c :: rest) || containsSubstrAux rest pat

/-- String containment, executable by kernel reduction. -/
def containsSubstr (s pat : String) : Bool := containsSubstrAux s.data pat.data

/-- JS `Math.round`: nearest integer, halves toward plus infinity. -/
def jsRound (q : ℚ) : ℤ := ⌊q + 1 / 2⌋

/-- Side of a held position, `Position.side` in `server.ts`. -/
inductive Side
  | LONG
  | SHORT
deriving DecidableEq, Repr

/-- The `Position` interface of `server.ts`: a normalized snapshot of one
held perpetual position. -/
structure Position where
  coin : String
  side : Side
  size : ℚ
  entryPrice : ℚ
  unrealizedPnl : ℚ
  leverage : ℚ
deriving DecidableEq, Repr

/-- One raw entry of `userState.assetPositions` as `getCurrentPosition`
reads it, with the numeric strings already parsed (`parseFloat`). -/
structure RawAssetPosition where
  coin : String
  szi : ℚ
  entryPx : ℚ
  unrealizedPnl : ℚ
  leverageValue : ℚ
deriving DecidableEq, Repr

/-- `convertMarketToCoin` of `server.ts`:
`market.split('_')[0].toUpperCase()` with `-PERP` appended. -/
def convertMarketToCoin (market : String) : String :=
  let coin := jsToUpper (splitHead market '_')
  coin ++ "-PERP"

/-- `getCurrentPosition` of `server.ts`, with the clearinghouse state
abstracted to the list of raw asset positions it inspects.  Strips `-PERP`
from the coin, finds the matching holding, returns `none` for a missing or
zero-size holding, and otherwise normalizes sign into side and absolute
size. -/
def getCurrentPosition (coin : String) (assetPositions : List RawAssetPosition) :
    Option Position :=
  let coinBase := jsReplace coin "-PERP" ""
  match assetPositions.find? (fun ap => ap.coin == coinBase) with
  | none => none
  | some ap =>
    let size := ap.szi
    if size = 0 then none
    else some
      { coin := ap.coin
        side := if size > 0 then Side.LONG else Side.SHORT
        size := |size|
        entryPrice := ap.entryPx
        unrealizedPnl := ap.unrealizedPnl
        leverage := ap.leverageValue }

/-- `calculatePositionSize` of `server.ts`:
`Math.round(availableBalance * leverage / marketPrice * 10000) / 10000`.
The source performs no input validation and cannot raise. -/
def calculatePositionSize (availableBalance leverage marketPrice : ℚ) : ℚ :=
  let positionValue := availableBalance * leverage
  let size := positionValue / marketPrice
  (jsRound (size * 10000) : ℚ) / 10000

/-- The sizing contract stated by the spec (§4.2), written from the spec's
words for comparison with `calculatePositionSize`: error out when
`marketPrice <= 0` or `availableBalance <= 0`, otherwise the half-up
4-decimal rounding.  No such validation exists in the source. -/
def sizeSpec (availableBalance leverage marketPrice : ℚ) : Except String ℚ :=
  if marketPrice ≤ 0 ∨ availableBalance ≤ 0 then Except.error "SizingError"
  else Except.ok ((jsRound (availableBalance * leverage / marketPrice * 10000) : ℚ) / 10000)

/-- `determineAction` of `server.ts`: pure decision table from the desired
position string and the current position snapshot to an action string. -/
def determineAction (desiredPosition : String) (currentPosition : Option Position) :
    String :=
  if desiredPosition = "flat" then
    match currentPosition with
    | some _ => "CLOSE"
    | none => "NONE"
  else if desiredPosition = "long" then
    match currentPosition with
    | none => "OPEN_LONG"
    | some p =>
      if p.side = Side.LONG then "NONE"
      else if p.side = Side.SHORT then "REVERSE_TO_LONG"
      else "NONE"
  else if desiredPosition = "short" then
    match currentPosition with
    | none => "OPEN_SHORT"
    | some p =>
      if p.side = Side.SHORT then "NONE"
      else if p.side = Side.LONG then "REVERSE_TO_SHORT"
      else "NONE"
  else "NONE"

/-- One leg of a `placeOrder` response, with JS truthiness of the `filled`
field modelled as a boolean. -/
structure LegStatus where
  filled : Bool
  status : String
deriving DecidableEq, Repr

/-- The per-leg fill check of the source:
`s.filled || s.status === 'filled' || (s.filled && s.filled !== '0')` —
under boolean truthiness the third disjunct is subsumed by the first. -/
def legFilled (s : LegStatus) : Bool :=
  s.filled || s.status == "filled"

/-- `statuses.every(...)` of the source: every leg reports filled. -/
def allFilled (legs : List LegStatus) : Bool := legs.all legFilled

/-- Outcome of one `sdk.exchange.placeOrder` call: a response carrying
per-leg statuses, a response without a readable status array, or a raised
transport/API error with its message. -/
inductive OrderResp
  | statuses (legs : List LegStatus)
  | noStatuses
  | err (msg : String)
deriving DecidableEq, Repr

/-- Whether one attempt's response reports a complete fill. -/
def respFilled : OrderResp → Bool
  | OrderResp.statuses legs => allFilled legs
  | OrderResp.noStatuses => false
  | OrderResp.err _ => false

/-- What the exchange does on one retry-loop attempt: the market price
returned by `getMarketPrice` and the outcome of the order submission. -/
structure AttemptEnv where
  marketPrice : ℚ
  resp : OrderResp

/-- The order request built and submitted by the executor (time-in-force is
the constant `Ioc` in every request and is omitted). -/
structure OrderRequest where
  coin : String
  is_buy : Bool
  sz : ℚ
  limit_px : ℚ
  reduce_only : Bool
deriving DecidableEq, Repr

/-- Observable events of one reconciliation, in program order. -/
inductive ExecEvent
  | fetchPosition (coin : String)
  | fetchBalance
  | fetchPrice (coin : String)
  | setLeverage (coin : String) (leverage : ℚ)
  | placeOrder (req : OrderRequest)
  | sleep (ms : ℕ)
  | notifyTrade (size : ℚ)
  | notifyError (msg : String)
deriving DecidableEq, Repr

instance : DecidableEq (Except String Unit) := fun a b =>
  match a, b with
  | Except.ok (), Except.ok () => isTrue rfl
  | Except.error x, Except.error y =>
    if h : x = y then isTrue (by rw [h]) else isFalse (fun hc => by cases hc; exact h rfl)
  | Except.ok _, Except.error _ => isFalse (fun hc => by cases hc)
  | Except.error _, Except.ok _ => isFalse (fun hc => by cases hc)

/-- Result of a run: the event trace plus normal return or thrown error. -/
structure ExecTrace where
  events : List ExecEvent
  result : Except String Unit
deriving DecidableEq, Repr

/-- `maxAttempts` of both executor loops. -/
def maxAttempts : ℕ := 3

/-- The close order built inside `closePosition`: sell to close a LONG, buy
to close a SHORT; size of the held position; unrounded market price as the
limit; reduce-only. -/
def closeOrderRequest (coin : String) (currentPosition : Position)
    (marketPrice : ℚ) : OrderRequest :=
  { coin := coin
    is_buy := currentPosition.side == Side.SHORT
    sz := currentPosition.size
    limit_px := marketPrice
    reduce_only := true }

/-- The `while (attempt < maxAttempts)` loop of `closePosition`.  `fuel` is
`maxAttempts - attempt` on entry; the base case is the fall-through throw
after the loop.  Each iteration re-fetches the price, submits the order,
and either returns on a full fill, sleeps 3000 ms on an unfilled status,
sleeps 1000 ms on an unreadable status or a caught error, or — on the last
attempt — falls through to the final throw (re-throwing the original error
in the catch branch). -/
def closeLoop (coin : String) (currentPosition : Position)
    (env : ℕ → AttemptEnv) : ℕ → ℕ → ExecTrace
  | _, 0 =>
    { events := []
      result := Except.error ("Close order failed after " ++ toString maxAttempts ++ " attempts") }
  | attempt, fuel + 1 =>
    let attempt := attempt + 1
    let e := env attempt
    let step : List ExecEvent :=
      [ExecEvent.fetchPrice coin,
       ExecEvent.placeOrder (closeOrderRequest coin currentPosition e.marketPrice)]
    match e.resp with
    | OrderResp.statuses legs =>
      if allFilled legs then { events := step, result := Except.ok () }
      else if attempt < maxAttempts then
        let rest := closeLoop coin currentPosition env attempt fuel
        { events := step ++ ExecEvent.sleep 3000 :: rest.events, result := rest.result }
      else
        let rest := closeLoop coin currentPosition env attempt fuel
        { events := step ++ rest.events, result := rest.result }
    | OrderResp.noStatuses =>
      if attempt < maxAttempts then
        let rest := closeLoop coin currentPosition env attempt fuel
        { events := step ++ ExecEvent.sleep 1000 :: rest.events, result := rest.result }
      else
        let rest := closeLoop coin currentPosition env attempt fuel
        { events := step ++ rest.events, result := rest.result }
    | OrderResp.err msg =>
      if attempt < maxAttempts then
        let rest := closeLoop coin currentPosition env attempt fuel
        { events := step ++ ExecEvent.sleep 1000 :: rest.events, result := rest.result }
      else
        { events := step, result := Except.error msg }

/-- `closePosition` of `server.ts`: run the close retry loop from attempt 0
with the full attempt budget. -/
def closePosition (coin : String) (currentPosition : Position)
    (env : ℕ → AttemptEnv) : ExecTrace :=
  closeLoop coin currentPosition env 0 maxAttempts

/-- `parseFloat(marketPrice.toFixed(2))` of `openPosition`, idealised as
rounding to 2 decimal places. -/
def toFixed2 (q : ℚ) : ℚ := (jsRound (q * 100) : ℚ) / 100

/-- The open order built inside `openPosition`: requested direction and
size, limit price rounded to 2 decimals, not reduce-only. -/
def openOrderRequest (coin : String) (isBuy : Bool) (size : ℚ)
    (marketPrice : ℚ) : OrderRequest :=
  { coin := coin
    is_buy := isBuy
    sz := size
    limit_px := toFixed2 marketPrice
    reduce_only := false }

/-- The `while (attempt < maxAttempts)` loop of `openPosition`; identical
shape to `closeLoop` with the open order request and message. -/
def openLoop (coin : String) (isBuy : Bool) (size : ℚ)
    (env : ℕ → AttemptEnv) : ℕ → ℕ → ExecTrace
  | _, 0 =>
    { events := []
      result := Except.error ("Open order failed after " ++ toString maxAttempts ++ " attempts") }
  | attempt, fuel + 1 =>
    let attempt := attempt + 1
    let e := env attempt
    let step : List ExecEvent :=
      [ExecEvent.fetchPrice coin,
       ExecEvent.placeOrder (openOrderRequest coin isBuy size e.marketPrice)]
    match e.resp with
    | OrderResp.statuses legs =>
      if allFilled legs then { events := step, result := Except.ok () }
      else if attempt < maxAttempts then
        let rest := openLoop coin isBuy size env attempt fuel
        { events := step ++ ExecEvent.sleep 3000 :: rest.events, result := rest.result }
      else
        let rest := openLoop coin isBuy size env attempt fuel
        { events := step ++ rest.events, result := rest.result }
    | OrderResp.noStatuses =>
      if attempt < maxAttempts then
        let rest := openLoop coin isBuy size env attempt fuel
        { events := step ++ ExecEvent.sleep 1000 :: rest.events, result := rest.result }
      else
        let rest := openLoop coin isBuy size env attempt fuel
        { events := step ++ rest.events, result := rest.result }
    | OrderResp.err msg =>
      if attempt < maxAttempts then
        let rest := openLoop coin isBuy size env attempt fuel
        { events := step ++ ExecEvent.sleep 1000 :: rest.events, result := rest.result }
      else
        { events := step, result := Except.error msg }

/-- Environment of `openPosition`: the outcome of the single
`updateLeverage` call, then the per-attempt exchange behaviour. -/
structure OpenEnv where
  leverageResult : Except String Unit
  attempts : ℕ → AttemptEnv

/-- `openPosition` of `server.ts`: one `updateLeverage` call first — whose
raised error propagates with no order attempt — then the open retry loop. -/
def openPosition (coin : String) (isBuy : Bool) (size : ℚ) (leverage : ℚ)
    (env : OpenEnv) : ExecTrace :=
  match env.leverageResult with
  | Except.error e =>
    { events := [ExecEvent.setLeverage coin leverage], result := Except.error e }
  | Except.ok _ =>
    let t := openLoop coin isBuy size env.attempts 0 maxAttempts
    { events := ExecEvent.setLeverage coin leverage :: t.events, result := t.result }

/-- The inbound TradingView signal (`WebhookPayload` of `server.ts`);
fields unused by the execution path are kept for fidelity. -/
structure WebhookPayload where
  exchange : String
  strategy : String
  market : String
  sizeByLeverage : ℚ
  order : String
  position : String
  price : String

/-- Exchange and notification environment of one reconciliation: the
clearinghouse snapshot read at the start, the balance and price read when
sizing an open, the leverage-call outcome, the two attempt streams, and
whether a Discord webhook is configured. -/
structure OrchEnv where
  assetPositions : List RawAssetPosition
  availableBalance : ℚ
  marketPrice : ℚ
  leverageResult : Except String Unit
  openAttempts : ℕ → AttemptEnv
  closeAttempts : ℕ → AttemptEnv
  hasDiscordWebhook : Bool

/-- `executeLong` of `server.ts`: read balance and price, size the order,
open a long.  Returns the trace paired with the computed size (the
`{ size }` object the source returns on success). -/
def executeLong (coin : String) (leverage : ℚ) (env : OrchEnv) : ExecTrace × ℚ :=
  let size := calculatePositionSize env.availableBalance leverage env.marketPrice
  let t := openPosition coin true size leverage
    { leverageResult := env.leverageResult, attempts := env.openAttempts }
  ({ events := ExecEvent.fetchBalance :: ExecEvent.fetchPrice coin :: t.events
     result := t.result }, size)

/-- `executeShort` of `server.ts`: as `executeLong` with a sell. -/
def executeShort (coin : String) (leverage : ℚ) (env : OrchEnv) : ExecTrace × ℚ :=
  let size := calculatePositionSize env.availableBalance leverage env.marketPrice
  let t := openPosition coin false size leverage
    { leverageResult := env.leverageResult, attempts := env.openAttempts }
  ({ events := ExecEvent.fetchBalance :: ExecEvent.fetchPrice coin :: t.events
     result := t.result }, size)

/-- `executeTradeFromWebhook` of `server.ts`: map the market to a coin,
fetch the current position, decide the action, dispatch it, and notify —
a trade alert on a successful non-`NONE` action that produced an order
result, an error alert plus a re-throw on any failure, and an early return
with no notification for `NONE`. -/
def executeTradeFromWebhook (payload : WebhookPayload) (env : OrchEnv) : ExecTrace :=
  let coin := convertMarketToCoin payload.market
  let currentPosition := getCurrentPosition coin env.assetPositions
  let action := determineAction payload.position currentPosition
  let dispatch : List ExecEvent × Except String Unit × Option ℚ :=
    if action = "OPEN_LONG" then
      let tl := executeLong coin payload.sizeByLeverage env
      (tl.1.events, tl.1.result,
        match tl.1.result with | Except.ok _ => some tl.2 | Except.error _ => none)
    else if action = "OPEN_SHORT" then
      let ts := executeShort coin payload.sizeByLeverage env
      (ts.1.events, ts.1.result,
        match ts.1.result with | Except.ok _ => some ts.2 | Except.error _ => none)
    else if action = "CLOSE" then
      match currentPosition with
      | some pos =>
        let tc := closePosition coin pos env.closeAttempts
        (tc.events, tc.result,
          match tc.result with | Except.ok _ => some pos.size | Except.error _ => none)
      | none => ([], Except.ok (), none)
    else if action = "REVERSE_TO_LONG" then
      let closePart : List ExecEvent × Except String Unit :=
        match currentPosition with
        | some pos =>
          let tc := closePosition coin pos env.closeAttempts
          (tc.events, tc.result)
        | none => ([], Except.ok ())
      match closePart.2 with
      | Except.ok _ =>
        let tl := executeLong coin payload.sizeByLeverage env
        (closePart.1 ++ tl.1.events, tl.1.result,
          match tl.1.result with | Except.ok _ => some tl.2 | Except.error _ => none)
      | Except.error e => (closePart.1, Except.error e, none)
    else if action = "REVERSE_TO_SHORT" then
      let closePart : List ExecEvent × Except String Unit :=
        match currentPosition with
        | some pos =>
          let tc := closePosition coin pos env.closeAttempts
          (tc.events, tc.result)
        | none => ([], Except.ok ())
      match closePart.2 with
      | Except.ok _ =>
        let ts := executeShort coin payload.sizeByLeverage env
        (closePart.1 ++ ts.1.events, ts.1.result,
          match ts.1.result with | Except.ok _ => some ts.2 | Except.error _ => none)
      | Except.error e => (closePart.1, Except.error e, none)
    else ([], Except.ok (), none)
  match dispatch.2.1 with
  | Except.ok _ =>
    let notif : List ExecEvent :=
      if env.hasDiscordWebhook then
        match dispatch.2.2 with
        | some sz => [ExecEvent.notifyTrade sz]
        | none => []
      else []
    { events := ExecEvent.fetchPosition coin :: dispatch.1 ++ notif
      result := Except.ok () }
  | Except.error e =>
    let notif : List ExecEvent :=
      if env.hasDiscordWebhook then [ExecEvent.notifyError e] else []
    { events := ExecEvent.fetchPosition coin :: dispatch.1 ++ notif
      result := Except.error e }

/-- Number of order submissions recorded in a trace. -/
def countOrders (evs : List ExecEvent) : ℕ :=
  (evs.filter (fun e => match e with | ExecEvent.placeOrder _ => true | _ => false)).length

/-- Number of leverage-configuration calls recorded in a trace. -/
def countLeverageCalls (evs : List ExecEvent) : ℕ :=
  (evs.filter (fun e => match e with | ExecEvent.setLeverage _ _ => true | _ => false)).length

/-- Total simulated backoff of a trace, in milliseconds. -/
def totalSleep (evs : List ExecEvent) : ℕ :=
  (evs.map (fun e => match e with | ExecEvent.sleep ms => ms | _ => 0)).sum

/-- Concrete scenario environment: every attempt fetches price 100 and the
order comes back with a single unfilled (resting) leg. -/
def unfilledEnv : ℕ → AttemptEnv := fun _ => ⟨100, OrderResp.statuses [⟨false, "resting"⟩]⟩

/-- Concrete scenario environment: every attempt fetches price 100 and the
order comes back fully filled. -/
def filledEnv : ℕ → AttemptEnv := fun _ => ⟨100, OrderResp.statuses [⟨true, "filled"⟩]⟩

/-- Concrete scenario environment: unfilled status responses on the first
two attempts, a full fill on the third. -/
def thirdFillEnv : ℕ → AttemptEnv := fun i =>
  if i < 3 then ⟨100, OrderResp.statuses [⟨false, "resting"⟩]⟩
  else ⟨101, OrderResp.statuses [⟨true, "filled"⟩]⟩

/-- Concrete LONG position fixture used in scenario runs. -/
def witnessPosition : Position := ⟨"BTC-PERP", Side.LONG, 1, 100, 0, 2⟩

/-- Signal fixture that desires flat. -/
def nonePayload : WebhookPayload :=
  { exchange := "hyperliquid", strategy := "strat", market := "BTC_USD",
    sizeByLeverage := 2, order := "sell", position := "flat", price := "50000" }

/-- Orchestrator environment fixture: no holdings, every call succeeds. -/
def noneOrchEnv : OrchEnv :=
  { assetPositions := [], availableBalance := 1000, marketPrice := 100,
    leverageResult := Except.ok (), openAttempts := filledEnv,
    closeAttempts := filledEnv, hasDiscordWebhook := true }

/-- Signal fixture that desires long. -/
def reversePayload : WebhookPayload :=
  { exchange := "hyperliquid", strategy := "strat", market := "BTC_USD",
    sizeByLeverage := 2, order := "buy", position := "long", price := "50000" }

/-- Orchestrator environment fixture: one SHORT BTC holding of signed size
`-1`, with the leverage call succeeding and every order filling. -/
def reverseOrchEnv : OrchEnv :=
  { assetPositions := [⟨"BTC", -1, 100, 0, 2⟩], availableBalance := 1000, marketPrice := 100,
    leverageResult := Except.ok (), openAttempts := filledEnv,
    closeAttempts := filledEnv, hasDiscordWebhook := true }

/-! ## Helper lemmas -/

theorem jsRound_nonneg {q : ℚ} (h : 0 ≤ q) : 0 ≤ jsRound q := by
  unfold jsRound
  rw [Int.floor_nonneg]
  linarith

theorem jsRound_nonpos {q : ℚ} (h : q ≤ 0) : jsRound q ≤ 0 := by
  unfold jsRound
  have h2 : q + 1 / 2 ≤ (0 : ℚ) + 1 / 2 := by linarith
  calc ⌊q + 1 / 2⌋ ≤ ⌊(0 : ℚ) + 1 / 2⌋ := Int.floor_le_floor h2
    _ = 0 := by norm_num

/-! ## Claims -/

/-- C1: for every desired position in `{flat, long, short}` and every
current position in `{absent, long, short}`, `determineAction` returns
exactly the action of the §4.1 table.  The embedded function is pure and
total, so there is no side effect and no error case. -/
theorem determineAction_table :
    determineAction "flat" none = "NONE" ∧
    (∀ p : Position, p.side = Side.LONG → determineAction "flat" (some p) = "CLOSE") ∧
    (∀ p : Position, p.side = Side.SHORT → determineAction "flat" (some p) = "CLOSE") ∧
    determineAction "long" none = "OPEN_LONG" ∧
    (∀ p : Position, p.side = Side.LONG → determineAction "long" (some p) = "NONE") ∧
    (∀ p : Position, p.side = Side.SHORT → determineAction "long" (some p) = "REVERSE_TO_LONG") ∧
    determineAction "short" none = "OPEN_SHORT" ∧
    (∀ p : Position, p.side = Side.LONG → determineAction "short" (some p) = "REVERSE_TO_SHORT") ∧
    (∀ p : Position, p.side = Side.SHORT → determineAction "short" (some p) = "NONE") := by
  refine ⟨by simp [determineAction], ?_, ?_, by simp [determineAction], ?_, ?_,
    by simp [determineAction], ?_, ?_⟩ <;> intro p h <;> simp [determineAction, h]

/-- Witness for C1 at a concrete SHORT position. -/
theorem determineAction_table_witness :
    (⟨"BTC-PERP", Side.SHORT, 1, 100, 0, 2⟩ : Position).side = Side.SHORT ∧
    determineAction "long" (some ⟨"BTC-PERP", Side.SHORT, 1, 100, 0, 2⟩) = "REVERSE_TO_LONG" :=
  ⟨rfl, determineAction_table.2.2.2.2.2.1 ⟨"BTC-PERP", Side.SHORT, 1, 100, 0, 2⟩ rfl⟩

/-- C10: `determineAction` is total over arbitrary desired-position
strings: any value outside `{flat, long, short}` yields `NONE` for every
current position, never an error. -/
theorem determineAction_unrecognized (desiredPosition : String)
    (currentPosition : Option Position)
    (h1 : desiredPosition ≠ "flat") (h2 : desiredPosition ≠ "long")
    (h3 : desiredPosition ≠ "short") :
    determineAction desiredPosition currentPosition = "NONE" := by
  simp [determineAction, h1, h2, h3]

/-- Witness for C10 at the unrecognized desired position `"exit"` with a
LONG position held. -/
theorem determineAction_unrecognized_witness :
    ("exit" : String) ≠ "flat" ∧ ("exit" : String) ≠ "long" ∧ ("exit" : String) ≠ "short" ∧
    determineAction "exit" (some ⟨"BTC-PERP", Side.LONG, 1, 100, 0, 2⟩) = "NONE" :=
  ⟨by decide, by decide, by decide,
    determineAction_unrecognized "exit" (some ⟨"BTC-PERP", Side.LONG, 1, 100, 0, 2⟩)
      (by decide) (by decide) (by decide)⟩

/-- C2 counterexample: the claim says `size(-1, y, price)` fails with a
`SizingError` for every `y`, `price`; at `y = 1`, `price = 1` the code
raises nothing and silently returns the value `-1`, while the spec's own
contract demands an error there. -/
theorem calculatePositionSize_no_error_cex :
    calculatePositionSize (-1) 1 1 = -1 ∧
    sizeSpec (-1) 1 1 = Except.error "SizingError" := by
  constructor
  · show (jsRound ((-1 : ℚ) * 1 / 1 * 10000) : ℚ) / 10000 = -1
    norm_num [jsRound]
  · norm_num [sizeSpec]

/-- C2 amended: the sizing calculator performs no input validation and
never fails; on a non-positive balance (with non-negative leverage and
positive price) it silently returns a non-positive size where the spec's
contract demands a `SizingError`. -/
theorem calculatePositionSize_silent_on_invalid
    (b l p : ℚ) (hb : b ≤ 0) (hl : 0 ≤ l) (hp : 0 < p) :
    calculatePositionSize b l p ≤ 0 ∧
    sizeSpec b l p = Except.error "SizingError" := by
  constructor
  · show (jsRound (b * l / p * 10000) : ℚ) / 10000 ≤ 0
    have hbl : b * l ≤ 0 := mul_nonpos_iff.mpr (Or.inr ⟨hb, hl⟩)
    have hq : b * l / p ≤ 0 := div_nonpos_iff.mpr (Or.inr ⟨hbl, hp.le⟩)
    have hr : jsRound (b * l / p * 10000) ≤ 0 := jsRound_nonpos (by nlinarith)
    have hc : (jsRound (b * l / p * 10000) : ℚ) ≤ 0 := by exact_mod_cast hr
    linarith
  · simp [sizeSpec, Or.inr hb]

/-- Witness for the amended C2 at `(-1, 1, 1)`. -/
theorem calculatePositionSize_silent_on_invalid_witness :
    (-1 : ℚ) ≤ 0 ∧ (0 : ℚ) ≤ 1 ∧ (0 : ℚ) < 1 ∧
    (calculatePositionSize (-1) 1 1 ≤ 0 ∧
      sizeSpec (-1) 1 1 = Except.error "SizingError") :=
  ⟨by norm_num, by norm_num, by norm_num,
    calculatePositionSize_silent_on_invalid (-1) 1 1 (by norm_num) (by norm_num) (by norm_num)⟩

/-- C5 counterexample: the claim says the result is non-negative for every
input; at `(1, 1, -1)` the code returns `-1 < 0`. -/
theorem calculatePositionSize_nonneg_cex :
    calculatePositionSize 1 1 (-1) = -1 ∧ ¬ (0 : ℚ) ≤ calculatePositionSize 1 1 (-1) := by
  have h : calculatePositionSize 1 1 (-1) = -1 := by
    show (jsRound ((1 : ℚ) * 1 / (-1) * 10000) : ℚ) / 10000 = -1
    norm_num [jsRound]
  exact ⟨h, by rw [h]; norm_num⟩

/-- C5 amended: the calculator returns the half-up 4-decimal rounding of
`availableBalance * leverage / marketPrice` (so `size(10000, 5/2, 50000)
= 1/2`), the result is always an integer multiple of `1/10000`, and it is
non-negative whenever balance and leverage are non-negative and the price
is positive — but not for arbitrary signed inputs. -/
theorem calculatePositionSize_rounding :
    calculatePositionSize 10000 (5 / 2) 50000 = 1 / 2 ∧
    (∀ b l p : ℚ, ∃ k : ℤ, calculatePositionSize b l p = (k : ℚ) / 10000) ∧
    (∀ b l p : ℚ, 0 ≤ b → 0 ≤ l → 0 < p → 0 ≤ calculatePositionSize b l p) := by
  refine ⟨?_, fun b l p => ⟨jsRound (b * l / p * 10000), rfl⟩, fun b l p hb hl hp => ?_⟩
  · show (jsRound ((10000 : ℚ) * (5 / 2) / 50000 * 10000) : ℚ) / 10000 = 1 / 2
    norm_num [jsRound]
  · show (0 : ℚ) ≤ (jsRound (b * l / p * 10000) : ℚ) / 10000
    have hq : 0 ≤ b * l / p := div_nonneg (mul_nonneg hb hl) hp.le
    have hr : 0 ≤ jsRound (b * l / p * 10000) := jsRound_nonneg (by nlinarith)
    have hc : (0 : ℚ) ≤ (jsRound (b * l / p * 10000) : ℚ) := by exact_mod_cast hr
    linarith

/-- Witness for the amended C5 at `(10000, 5/2, 50000)`. -/
theorem calculatePositionSize_rounding_witness :
    (0 : ℚ) ≤ 10000 ∧ (0 : ℚ) ≤ 5 / 2 ∧ (0 : ℚ) < 50000 ∧
    0 ≤ calculatePositionSize 10000 (5 / 2) 50000 :=
  ⟨by norm_num, by norm_num, by norm_num,
    calculatePositionSize_rounding.2.2 10000 (5 / 2) 50000 (by norm_num) (by norm_num) (by norm_num)⟩

/-- C9: `getCurrentPosition` never returns a `Position` of size 0.  A
holding whose parsed signed size is 0, or an instrument with no holding,
yields absence; every returned `Position` has strictly positive size, with
side `LONG` exactly when the raw signed size is positive and `SHORT`
exactly when it is negative. -/
theorem getCurrentPosition_normalized (coin : String)
    (assetPositions : List RawAssetPosition) :
    (∀ p, getCurrentPosition coin assetPositions = some p →
      0 < p.size ∧
      ∃ ap, assetPositions.find? (fun a => a.coin == jsReplace coin "-PERP" "") = some ap ∧
        ap.szi ≠ 0 ∧ (p.side = Side.LONG ↔ 0 < ap.szi) ∧ (p.side = Side.SHORT ↔ ap.szi < 0)) ∧
    (∀ ap, assetPositions.find? (fun a => a.coin == jsReplace coin "-PERP" "") = some ap →
      ap.szi = 0 → getCurrentPosition coin assetPositions = none) ∧
    (assetPositions.find? (fun a => a.coin == jsReplace coin "-PERP" "") = none →
      getCurrentPosition coin assetPositions = none) := by
  refine ⟨?_, ?_, ?_⟩
  · intro p hp
    simp only [getCurrentPosition] at hp
    rcases hfind : assetPositions.find? (fun a => a.coin == jsReplace coin "-PERP" "") with _ | ap
    · rw [hfind] at hp
      simp at hp
    · rw [hfind] at hp
      dsimp only at hp
      by_cases hz : ap.szi = 0
      · simp [hz] at hp
      · rw [if_neg hz] at hp
        have hp' := Option.some.inj hp
        subst hp'
        refine ⟨abs_pos.mpr hz, ap, hfind, hz, ?_, ?_⟩
        · by_cases hpos : ap.szi > 0
          · simp [hpos]
          · simp [hpos]
        · by_cases hpos : ap.szi > 0
          · simp [hpos]
            linarith
          · simp [hpos]
            exact lt_of_le_of_ne (le_of_not_lt hpos) hz
  · intro ap hfind hz
    simp only [getCurrentPosition]
    rw [hfind]
    dsimp only
    rw [if_pos hz]
  · intro hfind
    simp only [getCurrentPosition]
    rw [hfind]

/-- Witness for C9: a raw holding of signed size `-2` becomes a SHORT
position of size 2, and a raw holding of signed size 0 becomes absence. -/
theorem getCurrentPosition_normalized_witness :
    getCurrentPosition "ETH-PERP" [⟨"ETH", -2, 2000, 5, 3⟩] =
      some ⟨"ETH", Side.SHORT, 2, 2000, 5, 3⟩ ∧
    0 < (⟨"ETH", Side.SHORT, 2, 2000, 5, 3⟩ : Position).size ∧
    getCurrentPosition "ETH-PERP" [⟨"ETH", 0, 2000, 5, 3⟩] = none := by
  have h1 : jsReplace "ETH-PERP" "-PERP" "" = "ETH" := by decide
  have heval : getCurrentPosition "ETH-PERP" [⟨"ETH", -2, 2000, 5, 3⟩] =
      some ⟨"ETH", Side.SHORT, 2, 2000, 5, 3⟩ := by
    simp only [getCurrentPosition, h1]
    rw [List.find?_cons_of_pos _ (by decide)]
    norm_num
  refine ⟨heval, ((getCurrentPosition_normalized "ETH-PERP" _).1 _ heval).1, ?_⟩
  refine (getCurrentPosition_normalized "ETH-PERP" _).2.1 ⟨"ETH", 0, 2000, 5, 3⟩ ?_ rfl
  rw [h1]
  exact List.find?_cons_of_pos _ (by decide)

theorem closeLoop_events_shape (coin : String) (pos : Position) (env : ℕ → AttemptEnv) :
    ∀ fuel attempt ev, ev ∈ (closeLoop coin pos env attempt fuel).events →
      (∃ p, ev = ExecEvent.placeOrder (closeOrderRequest coin pos p)) ∨
      ev = ExecEvent.fetchPrice coin ∨ ∃ ms, ev = ExecEvent.sleep ms := by
  intro fuel
  induction fuel with
  | zero => intro attempt ev h; simp [closeLoop] at h
  | succ n ih =>
    intro attempt ev h
    simp only [closeLoop] at h
    rcases hr : (env (attempt + 1)).resp with legs | _ | m <;> rw [hr] at h <;>
      dsimp only at h <;> split_ifs at h <;>
      simp only [List.cons_append, List.nil_append, List.mem_cons, List.not_mem_nil,
        or_false] at h <;>
      (repeat' rcases h with h | h) <;>
      first
        | exact ih _ _ h
        | simp

theorem openLoop_events_shape (coin : String) (isBuy : Bool) (size : ℚ)
    (env : ℕ → AttemptEnv) :
    ∀ fuel attempt ev, ev ∈ (openLoop coin isBuy size env attempt fuel).events →
      (∃ p, ev = ExecEvent.placeOrder (openOrderRequest coin isBuy size p)) ∨
      ev = ExecEvent.fetchPrice coin ∨ ∃ ms, ev = ExecEvent.sleep ms := by
  intro fuel
  induction fuel with
  | zero => intro attempt ev h; simp [openLoop] at h
  | succ n ih =>
    intro attempt ev h
    simp only [openLoop] at h
    rcases hr : (env (attempt + 1)).resp with legs | _ | m <;> rw [hr] at h <;>
      dsimp only at h <;> split_ifs at h <;>
      simp only [List.cons_append, List.nil_append, List.mem_cons, List.not_mem_nil,
        or_false] at h <;>
      (repeat' rcases h with h | h) <;>
      first
        | exact ih _ _ h
        | simp

theorem closeLoop_order_reduce_only (coin : String) (pos : Position)
    (env : ℕ → AttemptEnv) (fuel attempt : ℕ) (req : OrderRequest)
    (h : ExecEvent.placeOrder req ∈ (closeLoop coin pos env attempt fuel).events) :
    req.reduce_only = true := by
  rcases closeLoop_events_shape coin pos env fuel attempt _ h with ⟨p, hp⟩ | hp | ⟨ms, hp⟩
  · injection hp with h1
    rw [h1]
    rfl
  · simp at hp
  · simp at hp

theorem openLoop_order_not_reduce_only (coin : String) (isBuy : Bool) (size : ℚ)
    (env : ℕ → AttemptEnv) (fuel attempt : ℕ) (req : OrderRequest)
    (h : ExecEvent.placeOrder req ∈ (openLoop coin isBuy size env attempt fuel).events) :
    req.reduce_only = false := by
  rcases openLoop_events_shape coin isBuy size env fuel attempt _ h with ⟨p, hp⟩ | hp | ⟨ms, hp⟩
  · injection hp with h1
    rw [h1]
    rfl
  · simp at hp
  · simp at hp

theorem openLoop_no_leverage_event (coin : String) (isBuy : Bool) (size : ℚ)
    (env : ℕ → AttemptEnv) (fuel attempt : ℕ) (c : String) (l : ℚ)
    (h : ExecEvent.setLeverage c l ∈ (openLoop coin isBuy size env attempt fuel).events) :
    False := by
  rcases openLoop_events_shape coin isBuy size env fuel attempt _ h with ⟨p, hp⟩ | hp | ⟨ms, hp⟩ <;>
    simp at hp

theorem closeLoop_has_order (coin : String) (pos : Position) (env : ℕ → AttemptEnv)
    (attempt fuel : ℕ) :
    ∃ req, ExecEvent.placeOrder req ∈ (closeLoop coin pos env attempt (fuel + 1)).events := by
  refine ⟨closeOrderRequest coin pos (env (attempt + 1)).marketPrice, ?_⟩
  simp only [closeLoop]
  rcases hr : (env (attempt + 1)).resp with legs | _ | m <;>
    dsimp only <;> split_ifs <;> simp

theorem openLoop_has_order (coin : String) (isBuy : Bool) (size : ℚ)
    (env : ℕ → AttemptEnv) (attempt fuel : ℕ) :
    ∃ req, ExecEvent.placeOrder req ∈ (openLoop coin isBuy size env attempt (fuel + 1)).events := by
  refine ⟨openOrderRequest coin isBuy size (env (attempt + 1)).marketPrice, ?_⟩
  simp only [openLoop]
  rcases hr : (env (attempt + 1)).resp with legs | _ | m <;>
    dsimp only <;> split_ifs <;> simp

theorem closeFailMsg_eq :
    "Close order failed after " ++ toString maxAttempts ++ " attempts" =
      "Close order failed after 3 attempts" := by decide

theorem openFailMsg_eq :
    "Open order failed after " ++ toString maxAttempts ++ " attempts" =
      "Open order failed after 3 attempts" := by decide

theorem closeLoop_step_filled (coin : String) (pos : Position) (env : ℕ → AttemptEnv)
    (attempt fuel : ℕ) (h : respFilled (env (attempt + 1)).resp = true) :
    closeLoop coin pos env attempt (fuel + 1) =
      { events := [ExecEvent.fetchPrice coin,
          ExecEvent.placeOrder (closeOrderRequest coin pos (env (attempt + 1)).marketPrice)],
        result := Except.ok () } := by
  rcases hr : (env (attempt + 1)).resp with legs | _ | m <;> rw [hr] at h <;>
    simp [respFilled] at h <;> simp [closeLoop, hr, h]

theorem closeLoop_step_unfilledStatus (coin : String) (pos : Position)
    (env : ℕ → AttemptEnv) (attempt fuel : ℕ) (legs : List LegStatus)
    (hr : (env (attempt + 1)).resp = OrderResp.statuses legs)
    (hf : allFilled legs = false) (hlt : attempt + 1 < maxAttempts) :
    closeLoop coin pos env attempt (fuel + 1) =
      { events := ExecEvent.fetchPrice coin ::
          ExecEvent.placeOrder (closeOrderRequest coin pos (env (attempt + 1)).marketPrice) ::
          ExecEvent.sleep 3000 :: (closeLoop coin pos env (attempt + 1) fuel).events,
        result := (closeLoop coin pos env (attempt + 1) fuel).result } := by
  simp [closeLoop, hr, hf, hlt]

theorem closeLoop_step_noStatuses (coin : String) (pos : Position)
    (env : ℕ → AttemptEnv) (attempt fuel : ℕ)
    (hr : (env (attempt + 1)).resp = OrderResp.noStatuses)
    (hlt : attempt + 1 < maxAttempts) :
    closeLoop coin pos env attempt (fuel + 1) =
      { events := ExecEvent.fetchPrice coin ::
          ExecEvent.placeOrder (closeOrderRequest coin pos (env (attempt + 1)).marketPrice) ::
          ExecEvent.sleep 1000 :: (closeLoop coin pos env (attempt + 1) fuel).events,
        result := (closeLoop coin pos env (attempt + 1) fuel).result } := by
  simp [closeLoop, hr, hlt]

theorem closeLoop_step_err (coin : String) (pos : Position)
    (env : ℕ → AttemptEnv) (attempt fuel : ℕ) (m : String)
    (hr : (env (attempt + 1)).resp = OrderResp.err m)
    (hlt : attempt + 1 < maxAttempts) :
    closeLoop coin pos env attempt (fuel + 1) =
      { events := ExecEvent.fetchPrice coin ::
          ExecEvent.placeOrder (closeOrderRequest coin pos (env (attempt + 1)).marketPrice) ::
          ExecEvent.sleep 1000 :: (closeLoop coin pos env (attempt + 1) fuel).events,
        result := (closeLoop coin pos env (attempt + 1) fuel).result } := by
  simp [closeLoop, hr, hlt]

theorem closeLoop_last_notFilled (coin : String) (pos : Position)
    (env : ℕ → AttemptEnv) (attempt : ℕ)
    (hnf : respFilled (env (attempt + 1)).resp = false)
    (hge : ¬ attempt + 1 < maxAttempts) :
    (closeLoop coin pos env attempt 1).events =
      [ExecEvent.fetchPrice coin,
       ExecEvent.placeOrder (closeOrderRequest coin pos (env (attempt + 1)).marketPrice)] ∧
    (closeLoop coin pos env attempt 1).result =
      (match (env (attempt + 1)).resp with
       | OrderResp.err m => Except.error m
       | _ => Except.error "Close order failed after 3 attempts") := by
  rcases hr : (env (attempt + 1)).resp with legs | _ | m <;> rw [hr] at hnf <;>
    simp only [respFilled] at hnf <;>
    simp [closeLoop, hr, hnf, hge, closeFailMsg_eq]

theorem openLoop_step_filled (coin : String) (isBuy : Bool) (size : ℚ)
    (env : ℕ → AttemptEnv) (attempt fuel : ℕ)
    (h : respFilled (env (attempt + 1)).resp = true) :
    openLoop coin isBuy size env attempt (fuel + 1) =
      { events := [ExecEvent.fetchPrice coin,
          ExecEvent.placeOrder (openOrderRequest coin isBuy size (env (attempt + 1)).marketPrice)],
        result := Except.ok () } := by
  rcases hr : (env (attempt + 1)).resp with legs | _ | m <;> rw [hr] at h <;>
    simp [respFilled] at h <;> simp [openLoop, hr, h]

theorem openLoop_step_unfilledStatus (coin : String) (isBuy : Bool) (size : ℚ)
    (env : ℕ → AttemptEnv) (attempt fuel : ℕ) (legs : List LegStatus)
    (hr : (env (attempt + 1)).resp = OrderResp.statuses legs)
    (hf : allFilled legs = false) (hlt : attempt + 1 < maxAttempts) :
    openLoop coin isBuy size env attempt (fuel + 1) =
      { events := ExecEvent.fetchPrice coin ::
          ExecEvent.placeOrder (openOrderRequest coin isBuy size (env (attempt + 1)).marketPrice) ::
          ExecEvent.sleep 3000 :: (openLoop coin isBuy size env (attempt + 1) fuel).events,
        result := (openLoop coin isBuy size env (attempt + 1) fuel).result } := by
  simp [openLoop, hr, hf, hlt]

theorem openLoop_last_notFilled (coin : String) (isBuy : Bool) (size : ℚ)
    (env : ℕ → AttemptEnv) (attempt : ℕ)
    (hnf : respFilled (env (attempt + 1)).resp = false)
    (hge : ¬ attempt + 1 < maxAttempts) :
    (openLoop coin isBuy size env attempt 1).events =
      [ExecEvent.fetchPrice coin,
       ExecEvent.placeOrder (openOrderRequest coin isBuy size (env (attempt + 1)).marketPrice)] ∧
    (openLoop coin isBuy size env attempt 1).result =
      (match (env (attempt + 1)).resp with
       | OrderResp.err m => Except.error m
       | _ => Except.error "Open order failed after 3 attempts") := by
  rcases hr : (env (attempt + 1)).resp with legs | _ | m <;> rw [hr] at hnf <;>
    simp only [respFilled] at hnf <;>
    simp [openLoop, hr, hnf, hge, openFailMsg_eq]

theorem closeLoop_step_notFilled (coin : String) (pos : Position)
    (env : ℕ → AttemptEnv) (attempt fuel : ℕ)
    (hnf : respFilled (env (attempt + 1)).resp = false)
    (hlt : attempt + 1 < maxAttempts) :
    ∃ ms, closeLoop coin pos env attempt (fuel + 1) =
      { events := ExecEvent.fetchPrice coin ::
          ExecEvent.placeOrder (closeOrderRequest coin pos (env (attempt + 1)).marketPrice) ::
          ExecEvent.sleep ms :: (closeLoop coin pos env (attempt + 1) fuel).events,
        result := (closeLoop coin pos env (attempt + 1) fuel).result } := by
  rcases hr : (env (attempt + 1)).resp with legs | _ | m
  · rw [hr] at hnf
    simp only [respFilled] at hnf
    exact ⟨3000, closeLoop_step_unfilledStatus coin pos env attempt fuel legs hr hnf hlt⟩
  · exact ⟨1000, closeLoop_step_noStatuses coin pos env attempt fuel hr hlt⟩
  · exact ⟨1000, closeLoop_step_err coin pos env attempt fuel m hr hlt⟩

theorem openLoop_step_notFilled (coin : String) (isBuy : Bool) (size : ℚ)
    (env : ℕ → AttemptEnv) (attempt fuel : ℕ)
    (hnf : respFilled (env (attempt + 1)).resp = false)
    (hlt : attempt + 1 < maxAttempts) :
    ∃ ms, openLoop coin isBuy size env attempt (fuel + 1) =
      { events := ExecEvent.fetchPrice coin ::
          ExecEvent.placeOrder (openOrderRequest coin isBuy size (env (attempt + 1)).marketPrice) ::
          ExecEvent.sleep ms :: (openLoop coin isBuy size env (attempt + 1) fuel).events,
        result := (openLoop coin isBuy size env (attempt + 1) fuel).result } := by
  rcases hr : (env (attempt + 1)).resp with legs | _ | m
  · rw [hr] at hnf
    simp only [respFilled] at hnf
    exact ⟨3000, openLoop_step_unfilledStatus coin isBuy size env attempt fuel legs hr hnf hlt⟩
  · refine ⟨1000, ?_⟩
    simp [openLoop, hr, hlt]
  · refine ⟨1000, ?_⟩
    simp [openLoop, hr, hlt]

/-- C6: every open issues exactly one leverage-configuration call, as the
first event, before any order attempt; a failed leverage call aborts
`openPosition` immediately with that failure, with no order attempt and no
second leverage call. -/
theorem openPosition_leverage_first (coin : String) (isBuy : Bool) (size lev : ℚ)
    (env : OpenEnv) :
    countLeverageCalls (openPosition coin isBuy size lev env).events = 1 ∧
    (openPosition coin isBuy size lev env).events.head? =
      some (ExecEvent.setLeverage coin lev) ∧
    (∀ e, env.leverageResult = Except.error e →
      openPosition coin isBuy size lev env =
        { events := [ExecEvent.setLeverage coin lev], result := Except.error e }) := by
  rcases hl : env.leverageResult with e | v
  · refine ⟨?_, ?_, ?_⟩
    · simp [openPosition, hl, countLeverageCalls]
    · simp [openPosition, hl]
    · intro e' he
      injection he with h1
      subst h1
      simp [openPosition, hl]
  · refine ⟨?_, ?_, ?_⟩
    · simp only [openPosition, hl, countLeverageCalls]
      rw [List.filter_cons_of_pos (by simp)]
      have hnil : (openLoop coin isBuy size env.attempts 0 maxAttempts).events.filter
          (fun e => match e with | ExecEvent.setLeverage _ _ => true | _ => false) = [] := by
        rw [List.filter_eq_nil_iff]
        intro ev hev
        rcases openLoop_events_shape coin isBuy size env.attempts maxAttempts 0 ev hev with
          ⟨p, hp⟩ | hp | ⟨ms, hp⟩ <;> subst hp <;> simp
      rw [hnil]
      rfl
    · simp [openPosition, hl]
    · intro e he
      simp at he

/-- Witness for C6: with a failing leverage call the whole open is a single
leverage event and the leverage error, with zero orders. -/
theorem openPosition_leverage_first_witness :
    (({ leverageResult := Except.error "Leverage update failed",
        attempts := filledEnv } : OpenEnv).leverageResult =
      Except.error "Leverage update failed") ∧
    openPosition "BTC-PERP" true 1 2
        { leverageResult := Except.error "Leverage update failed", attempts := filledEnv } =
      { events := [ExecEvent.setLeverage "BTC-PERP" 2],
        result := Except.error "Leverage update failed" } :=
  ⟨rfl, (openPosition_leverage_first "BTC-PERP" true 1 2
      { leverageResult := Except.error "Leverage update failed", attempts := filledEnv }).2.2
    "Leverage update failed" rfl⟩

theorem determineAction_none_not_reverse (d : String) :
    determineAction d none ≠ "REVERSE_TO_LONG" ∧ determineAction d none ≠ "REVERSE_TO_SHORT" := by
  by_cases h1 : d = "flat" <;> by_cases h2 : d = "long" <;> by_cases h3 : d = "short" <;>
    simp [determineAction, h1, h2, h3]

theorem executeLong_order_not_reduce_only (coin : String) (lev : ℚ) (env : OrchEnv)
    (req : OrderRequest)
    (h : ExecEvent.placeOrder req ∈ (executeLong coin lev env).1.events) :
    req.reduce_only = false := by
  simp only [executeLong, List.mem_cons] at h
  rcases h with h | h | h
  · simp at h
  · simp at h
  · simp only [openPosition] at h
    rcases hl : env.leverageResult with e | v <;> rw [hl] at h <;> dsimp only at h <;>
      simp only [List.mem_cons, List.mem_singleton, List.not_mem_nil, or_false] at h
    · simp at h
    · rcases h with h | h
      · simp at h
      · exact openLoop_order_not_reduce_only _ _ _ _ _ _ _ h

theorem executeShort_order_not_reduce_only (coin : String) (lev : ℚ) (env : OrchEnv)
    (req : OrderRequest)
    (h : ExecEvent.placeOrder req ∈ (executeShort coin lev env).1.events) :
    req.reduce_only = false := by
  simp only [executeShort, List.mem_cons] at h
  rcases h with h | h | h
  · simp at h
  · simp at h
  · simp only [openPosition] at h
    rcases hl : env.leverageResult with e | v <;> rw [hl] at h <;> dsimp only at h <;>
      simp only [List.mem_cons, List.mem_singleton, List.not_mem_nil, or_false] at h
    · simp at h
    · rcases h with h | h
      · simp at h
      · exact openLoop_order_not_reduce_only _ _ _ _ _ _ _ h

theorem executeLong_has_order (coin : String) (lev : ℚ) (env : OrchEnv)
    (hlev : env.leverageResult = Except.ok ()) :
    ∃ req, ExecEvent.placeOrder req ∈ (executeLong coin lev env).1.events := by
  obtain ⟨req, hreq⟩ := openLoop_has_order coin true
    (calculatePositionSize env.availableBalance lev env.marketPrice) env.openAttempts 0 2
  refine ⟨req, ?_⟩
  simp only [executeLong, openPosition, hlev, List.mem_cons]
  exact Or.inr (Or.inr (Or.inr hreq))

theorem executeShort_has_order (coin : String) (lev : ℚ) (env : OrchEnv)
    (hlev : env.leverageResult = Except.ok ()) :
    ∃ req, ExecEvent.placeOrder req ∈ (executeShort coin lev env).1.events := by
  obtain ⟨req, hreq⟩ := openLoop_has_order coin false
    (calculatePositionSize env.availableBalance lev env.marketPrice) env.openAttempts 0 2
  refine ⟨req, ?_⟩
  simp only [executeShort, openPosition, hlev, List.mem_cons]
  exact Or.inr (Or.inr (Or.inr hreq))

/-- C3 counterexample: three consecutive unfilled attempts make
`closePosition` fail with the message `"Close order failed after 3
attempts"`, which names the action kind but does not include the
instrument `"BTC-PERP"`, contradicting the claim that the error includes
the instrument.  No 4th order is submitted. -/
theorem retry_exhaustion_message_cex :
    (closePosition "BTC-PERP" witnessPosition unfilledEnv).result =
      Except.error "Close order failed after 3 attempts" ∧
    containsSubstr "Close order failed after 3 attempts" "BTC-PERP" = false ∧
    containsSubstr "Close order failed after 3 attempts" "Close" = true ∧
    countOrders (closePosition "BTC-PERP" witnessPosition unfilledEnv).events = 3 ∧
    (openPosition "BTC-PERP" true 1 2 ⟨Except.ok (), unfilledEnv⟩).result =
      Except.error "Open order failed after 3 attempts" ∧
    containsSubstr "Open order failed after 3 attempts" "BTC-PERP" = false :=
  ⟨rfl, by decide, by decide, rfl, rfl, by decide⟩

/-- C3 (amended): given 3 consecutive attempts none of which reports every
leg filled, both executors fail after exactly 3 order submissions, with no
4th attempt; the error is the fixed message naming the action kind and
attempt count (but not the instrument) when the third attempt returned a
response, and is the re-thrown third error when the third submission
raised. -/
theorem retry_exhaustion_three_attempts (coin : String) (pos : Position)
    (isBuy : Bool) (size lev : ℚ) (envC envO : ℕ → AttemptEnv)
    (hc1 : respFilled (envC 1).resp = false) (hc2 : respFilled (envC 2).resp = false)
    (hc3 : respFilled (envC 3).resp = false)
    (ho1 : respFilled (envO 1).resp = false) (ho2 : respFilled (envO 2).resp = false)
    (ho3 : respFilled (envO 3).resp = false) :
    countOrders (closePosition coin pos envC).events = 3 ∧
    (closePosition coin pos envC).result =
      (match (envC 3).resp with
       | OrderResp.err m => Except.error m
       | _ => Except.error "Close order failed after 3 attempts") ∧
    countOrders (openPosition coin isBuy size lev ⟨Except.ok (), envO⟩).events = 3 ∧
    (openPosition coin isBuy size lev ⟨Except.ok (), envO⟩).result =
      (match (envO 3).resp with
       | OrderResp.err m => Except.error m
       | _ => Except.error "Open order failed after 3 attempts") := by
  obtain ⟨cms1, Ec1⟩ := closeLoop_step_notFilled coin pos envC 0 2 hc1 (by norm_num [maxAttempts])
  obtain ⟨cms2, Ec2⟩ := closeLoop_step_notFilled coin pos envC 1 1 hc2 (by norm_num [maxAttempts])
  have Ec3 := closeLoop_last_notFilled coin pos envC 2 hc3 (by norm_num [maxAttempts])
  have Ec1' : closePosition coin pos envC =
      { events := ExecEvent.fetchPrice coin ::
          ExecEvent.placeOrder (closeOrderRequest coin pos (envC 1).marketPrice) ::
          ExecEvent.sleep cms1 :: (closeLoop coin pos envC 1 2).events,
        result := (closeLoop coin pos envC 1 2).result } := Ec1
  have Ec2' : closeLoop coin pos envC 1 2 =
      { events := ExecEvent.fetchPrice coin ::
          ExecEvent.placeOrder (closeOrderRequest coin pos (envC 2).marketPrice) ::
          ExecEvent.sleep cms2 :: (closeLoop coin pos envC 2 1).events,
        result := (closeLoop coin pos envC 2 1).result } := Ec2
  have Ec3e : (closeLoop coin pos envC 2 1).events =
      [ExecEvent.fetchPrice coin,
       ExecEvent.placeOrder (closeOrderRequest coin pos (envC 3).marketPrice)] := Ec3.1
  have Ec3r : (closeLoop coin pos envC 2 1).result =
      (match (envC 3).resp with
       | OrderResp.err m => Except.error m
       | _ => Except.error "Close order failed after 3 attempts") := Ec3.2
  obtain ⟨oms1, Eo1⟩ :=
    openLoop_step_notFilled coin isBuy size envO 0 2 ho1 (by norm_num [maxAttempts])
  obtain ⟨oms2, Eo2⟩ :=
    openLoop_step_notFilled coin isBuy size envO 1 1 ho2 (by norm_num [maxAttempts])
  have Eo3 := openLoop_last_notFilled coin isBuy size envO 2 ho3 (by norm_num [maxAttempts])
  have Eop : openPosition coin isBuy size lev ⟨Except.ok (), envO⟩ =
      { events := ExecEvent.setLeverage coin lev :: (openLoop coin isBuy size envO 0 3).events,
        result := (openLoop coin isBuy size envO 0 3).result } := rfl
  have Eo1' : openLoop coin isBuy size envO 0 3 =
      { events := ExecEvent.fetchPrice coin ::
          ExecEvent.placeOrder (openOrderRequest coin isBuy size (envO 1).marketPrice) ::
          ExecEvent.sleep oms1 :: (openLoop coin isBuy size envO 1 2).events,
        result := (openLoop coin isBuy size envO 1 2).result } := Eo1
  have Eo2' : openLoop coin isBuy size envO 1 2 =
      { events := ExecEvent.fetchPrice coin ::
          ExecEvent.placeOrder (openOrderRequest coin isBuy size (envO 2).marketPrice) ::
          ExecEvent.sleep oms2 :: (openLoop coin isBuy size envO 2 1).events,
        result := (openLoop coin isBuy size envO 2 1).result } := Eo2
  have Eo3e : (openLoop coin isBuy size envO 2 1).events =
      [ExecEvent.fetchPrice coin,
       ExecEvent.placeOrder (openOrderRequest coin isBuy size (envO 3).marketPrice)] := Eo3.1
  have Eo3r : (openLoop coin isBuy size envO 2 1).result =
      (match (envO 3).resp with
       | OrderResp.err m => Except.error m
       | _ => Except.error "Open order failed after 3 attempts") := Eo3.2
  refine ⟨?_, ?_, ?_, ?_⟩
  · rw [Ec1']
    dsimp only
    rw [Ec2']
    dsimp only
    rw [Ec3e]
    rfl
  · rw [Ec1']
    dsimp only
    rw [Ec2']
    dsimp only
    rw [Ec3r]
  · rw [Eop]
    dsimp only
    rw [Eo1']
    dsimp only
    rw [Eo2']
    dsimp only
    rw [Eo3e]
    rfl
  · rw [Eop]
    dsimp only
    rw [Eo1']
    dsimp only
    rw [Eo2']
    dsimp only
    rw [Eo3r]

/-- Witness for the amended C3: the all-unfilled scenario environment
satisfies the hypotheses and yields exactly 3 close orders. -/
theorem retry_exhaustion_three_attempts_witness :
    respFilled (unfilledEnv 1).resp = false ∧
    respFilled (unfilledEnv 2).resp = false ∧
    respFilled (unfilledEnv 3).resp = false ∧
    countOrders (closePosition "BTC-PERP" witnessPosition unfilledEnv).events = 3 :=
  ⟨by decide, by decide, by decide,
    (retry_exhaustion_three_attempts "BTC-PERP" witnessPosition true 1 2 unfilledEnv
      unfilledEnv (by decide) (by decide) (by decide) (by decide) (by decide) (by decide)).1⟩

/-- C8: every attempt re-fetches the market price and builds the order
from that attempt's price; a fully filled attempt returns success
immediately with no further events; the backoff before a retry is exactly
3000 ms after an unfilled status response and exactly 1000 ms after a
response without statuses or a raised submission error; and two
unfilled-status attempts followed by a filled third attempt succeed after
exactly 3 attempts with total backoff 3000 + 3000 ms — for both the close
and the open executor. -/
theorem executor_retry_backoff (coin : String) (pos : Position) (isBuy : Bool)
    (size lev : ℚ) (env : ℕ → AttemptEnv) :
    (respFilled (env 1).resp = true →
      closePosition coin pos env =
        { events := [ExecEvent.fetchPrice coin,
            ExecEvent.placeOrder (closeOrderRequest coin pos (env 1).marketPrice)],
          result := Except.ok () } ∧
      openPosition coin isBuy size lev ⟨Except.ok (), env⟩ =
        { events := [ExecEvent.setLeverage coin lev, ExecEvent.fetchPrice coin,
            ExecEvent.placeOrder (openOrderRequest coin isBuy size (env 1).marketPrice)],
          result := Except.ok () }) ∧
    (∀ legs, (env 1).resp = OrderResp.statuses legs → allFilled legs = false →
      (closePosition coin pos env).events.take 3 =
        [ExecEvent.fetchPrice coin,
         ExecEvent.placeOrder (closeOrderRequest coin pos (env 1).marketPrice),
         ExecEvent.sleep 3000]) ∧
    ((env 1).resp = OrderResp.noStatuses →
      (closePosition coin pos env).events.take 3 =
        [ExecEvent.fetchPrice coin,
         ExecEvent.placeOrder (closeOrderRequest coin pos (env 1).marketPrice),
         ExecEvent.sleep 1000]) ∧
    (∀ m, (env 1).resp = OrderResp.err m →
      (closePosition coin pos env).events.take 3 =
        [ExecEvent.fetchPrice coin,
         ExecEvent.placeOrder (closeOrderRequest coin pos (env 1).marketPrice),
         ExecEvent.sleep 1000]) ∧
    (∀ l1 l2, (env 1).resp = OrderResp.statuses l1 → allFilled l1 = false →
      (env 2).resp = OrderResp.statuses l2 → allFilled l2 = false →
      respFilled (env 3).resp = true →
      closePosition coin pos env =
        { events := [ExecEvent.fetchPrice coin,
            ExecEvent.placeOrder (closeOrderRequest coin pos (env 1).marketPrice),
            ExecEvent.sleep 3000,
            ExecEvent.fetchPrice coin,
            ExecEvent.placeOrder (closeOrderRequest coin pos (env 2).marketPrice),
            ExecEvent.sleep 3000,
            ExecEvent.fetchPrice coin,
            ExecEvent.placeOrder (closeOrderRequest coin pos (env 3).marketPrice)],
          result := Except.ok () } ∧
      countOrders (closePosition coin pos env).events = 3 ∧
      totalSleep (closePosition coin pos env).events = 6000 ∧
      openPosition coin isBuy size lev ⟨Except.ok (), env⟩ =
        { events := [ExecEvent.setLeverage coin lev,
            ExecEvent.fetchPrice coin,
            ExecEvent.placeOrder (openOrderRequest coin isBuy size (env 1).marketPrice),
            ExecEvent.sleep 3000,
            ExecEvent.fetchPrice coin,
            ExecEvent.placeOrder (openOrderRequest coin isBuy size (env 2).marketPrice),
            ExecEvent.sleep 3000,
            ExecEvent.fetchPrice coin,
            ExecEvent.placeOrder (openOrderRequest coin isBuy size (env 3).marketPrice)],
          result := Except.ok () }) := by
  have Eop : openPosition coin isBuy size lev ⟨Except.ok (), env⟩ =
      { events := ExecEvent.setLeverage coin lev :: (openLoop coin isBuy size env 0 3).events,
        result := (openLoop coin isBuy size env 0 3).result } := rfl
  refine ⟨?_, ?_, ?_, ?_, ?_⟩
  · intro h
    constructor
    · exact closeLoop_step_filled coin pos env 0 2 h
    · have EL : openLoop coin isBuy size env 0 3 =
          { events := [ExecEvent.fetchPrice coin,
              ExecEvent.placeOrder (openOrderRequest coin isBuy size (env 1).marketPrice)],
            result := Except.ok () } := openLoop_step_filled coin isBuy size env 0 2 h
      rw [Eop, EL]
  · intro legs hr hf
    have E : closePosition coin pos env =
        { events := ExecEvent.fetchPrice coin ::
            ExecEvent.placeOrder (closeOrderRequest coin pos (env 1).marketPrice) ::
            ExecEvent.sleep 3000 :: (closeLoop coin pos env 1 2).events,
          result := (closeLoop coin pos env 1 2).result } :=
      closeLoop_step_unfilledStatus coin pos env 0 2 legs hr hf (by norm_num [maxAttempts])
    rw [E]
    simp
  · intro hr
    have E : closePosition coin pos env =
        { events := ExecEvent.fetchPrice coin ::
            ExecEvent.placeOrder (closeOrderRequest coin pos (env 1).marketPrice) ::
            ExecEvent.sleep 1000 :: (closeLoop coin pos env 1 2).events,
          result := (closeLoop coin pos env 1 2).result } :=
      closeLoop_step_noStatuses coin pos env 0 2 hr (by norm_num [maxAttempts])
    rw [E]
    simp
  · intro m hr
    have E : closePosition coin pos env =
        { events := ExecEvent.fetchPrice coin ::
            ExecEvent.placeOrder (closeOrderRequest coin pos (env 1).marketPrice) ::
            ExecEvent.sleep 1000 :: (closeLoop coin pos env 1 2).events,
          result := (closeLoop coin pos env 1 2).result } :=
      closeLoop_step_err coin pos env 0 2 m hr (by norm_num [maxAttempts])
    rw [E]
    simp
  · intro l1 l2 h1 hf1 h2 hf2 h3
    have E1 : closePosition coin pos env =
        { events := ExecEvent.fetchPrice coin ::
            ExecEvent.placeOrder (closeOrderRequest coin pos (env 1).marketPrice) ::
            ExecEvent.sleep 3000 :: (closeLoop coin pos env 1 2).events,
          result := (closeLoop coin pos env 1 2).result } :=
      closeLoop_step_unfilledStatus coin pos env 0 2 l1 h1 hf1 (by norm_num [maxAttempts])
    have E2 : closeLoop coin pos env 1 2 =
        { events := ExecEvent.fetchPrice coin ::
            ExecEvent.placeOrder (closeOrderRequest coin pos (env 2).marketPrice) ::
            ExecEvent.sleep 3000 :: (closeLoop coin pos env 2 1).events,
          result := (closeLoop coin pos env 2 1).result } :=
      closeLoop_step_unfilledStatus coin pos env 1 1 l2 h2 hf2 (by norm_num [maxAttempts])
    have E3 : closeLoop coin pos env 2 1 =
        { events := [ExecEvent.fetchPrice coin,
            ExecEvent.placeOrder (closeOrderRequest coin pos (env 3).marketPrice)],
          result := Except.ok () } := closeLoop_step_filled coin pos env 2 0 h3
    have Efull : closePosition coin pos env =
        { events := [ExecEvent.fetchPrice coin,
            ExecEvent.placeOrder (closeOrderRequest coin pos (env 1).marketPrice),
            ExecEvent.sleep 3000,
            ExecEvent.fetchPrice coin,
            ExecEvent.placeOrder (closeOrderRequest coin pos (env 2).marketPrice),
            ExecEvent.sleep 3000,
            ExecEvent.fetchPrice coin,
            ExecEvent.placeOrder (closeOrderRequest coin pos (env 3).marketPrice)],
          result := Except.ok () } := by
      rw [E1, E2, E3]
    have O1 : openLoop coin isBuy size env 0 3 =
        { events := ExecEvent.fetchPrice coin ::
            ExecEvent.placeOrder (openOrderRequest coin isBuy size (env 1).marketPrice) ::
            ExecEvent.sleep 3000 :: (openLoop coin isBuy size env 1 2).events,
          result := (openLoop coin isBuy size env 1 2).result } :=
      openLoop_step_unfilledStatus coin isBuy size env 0 2 l1 h1 hf1 (by norm_num [maxAttempts])
    have O2 : openLoop coin isBuy size env 1 2 =
        { events := ExecEvent.fetchPrice coin ::
            ExecEvent.placeOrder (openOrderRequest coin isBuy size (env 2).marketPrice) ::
            ExecEvent.sleep 3000 :: (openLoop coin isBuy size env 2 1).events,
          result := (openLoop coin isBuy size env 2 1).result } :=
      openLoop_step_unfilledStatus coin isBuy size env 1 1 l2 h2 hf2 (by norm_num [maxAttempts])
    have O3 : openLoop coin isBuy size env 2 1 =
        { events := [ExecEvent.fetchPrice coin,
            ExecEvent.placeOrder (openOrderRequest coin isBuy size (env 3).marketPrice)],
          result := Except.ok () } := openLoop_step_filled coin isBuy size env 2 0 h3
    refine ⟨Efull, ?_, ?_, ?_⟩
    · rw [Efull]
      simp [countOrders, List.filter]
    · rw [Efull]
      simp [totalSleep]
    · rw [Eop, O1, O2, O3]

/-- Witness for C8: two unfilled attempts then a filled third against the
scenario environment give exactly 3 orders and 6000 ms of backoff. -/
theorem executor_retry_backoff_witness :
    (thirdFillEnv 1).resp = OrderResp.statuses [⟨false, "resting"⟩] ∧
    allFilled [⟨false, "resting"⟩] = false ∧
    respFilled (thirdFillEnv 3).resp = true ∧
    countOrders (closePosition "BTC-PERP" witnessPosition thirdFillEnv).events = 3 ∧
    totalSleep (closePosition "BTC-PERP" witnessPosition thirdFillEnv).events = 6000 := by
  refine ⟨by decide, by decide, by decide, ?_, ?_⟩
  · exact ((executor_retry_backoff "BTC-PERP" witnessPosition true 1 2 thirdFillEnv).2.2.2.2
      [⟨false, "resting"⟩] [⟨false, "resting"⟩] (by decide) (by decide) (by decide)
      (by decide) (by decide)).2.1
  · exact ((executor_retry_backoff "BTC-PERP" witnessPosition true 1 2 thirdFillEnv).2.2.2.2
      [⟨false, "resting"⟩] [⟨false, "resting"⟩] (by decide) (by decide) (by decide)
      (by decide) (by decide)).2.2.1

/-- C7: when the decided action is `NONE`, `executeTradeFromWebhook`
returns successfully with no exchange call in the dispatch (the only event
is the position-snapshot read that precedes the decision) and no
notification of any kind. -/
theorem none_action_no_calls (payload : WebhookPayload) (env : OrchEnv)
    (h : determineAction payload.position
      (getCurrentPosition (convertMarketToCoin payload.market) env.assetPositions) = "NONE") :
    (executeTradeFromWebhook payload env).result = Except.ok () ∧
    (executeTradeFromWebhook payload env).events =
      [ExecEvent.fetchPosition (convertMarketToCoin payload.market)] := by
  simp only [executeTradeFromWebhook]
  rw [h]
  simp

/-- Witness for C7: a flat signal with no holding produces a successful
no-op run with only the snapshot read. -/
theorem none_action_no_calls_witness :
    determineAction nonePayload.position
      (getCurrentPosition (convertMarketToCoin nonePayload.market)
        noneOrchEnv.assetPositions) = "NONE" ∧
    (executeTradeFromWebhook nonePayload noneOrchEnv).result = Except.ok () ∧
    (executeTradeFromWebhook nonePayload noneOrchEnv).events =
      [ExecEvent.fetchPosition (convertMarketToCoin nonePayload.market)] := by
  have h : determineAction nonePayload.position
      (getCurrentPosition (convertMarketToCoin nonePayload.market)
        noneOrchEnv.assetPositions) = "NONE" := by decide
  exact ⟨h, (none_action_no_calls nonePayload noneOrchEnv h).1,
    (none_action_no_calls nonePayload noneOrchEnv h).2⟩

/-- C4: for a reversal action the orchestrator performs close-then-open as
two separate order streams — every close-phase order is reduce-only, every
open-phase order is not, and each phase submits its own orders (never a
single flip order) — and when the close fails, the open is never attempted
(no non-reduce-only order ever appears) and the whole operation fails with
the close error. -/
theorem reversal_close_then_open (payload : WebhookPayload) (env : OrchEnv)
    (hrev : determineAction payload.position
        (getCurrentPosition (convertMarketToCoin payload.market) env.assetPositions) =
          "REVERSE_TO_LONG" ∨
      determineAction payload.position
        (getCurrentPosition (convertMarketToCoin payload.market) env.assetPositions) =
          "REVERSE_TO_SHORT") :
    ∃ pos, getCurrentPosition (convertMarketToCoin payload.market) env.assetPositions =
        some pos ∧
      (∀ e, (closePosition (convertMarketToCoin payload.market) pos env.closeAttempts).result =
          Except.error e →
        (executeTradeFromWebhook payload env).result = Except.error e ∧
        ∀ req, ExecEvent.placeOrder req ∈ (executeTradeFromWebhook payload env).events →
          req.reduce_only = true) ∧
      ((closePosition (convertMarketToCoin payload.market) pos env.closeAttempts).result =
          Except.ok () →
        ∃ tailEvents,
          (executeTradeFromWebhook payload env).events =
            ExecEvent.fetchPosition (convertMarketToCoin payload.market) ::
              (closePosition (convertMarketToCoin payload.market) pos env.closeAttempts).events ++
                tailEvents ∧
          (∀ req, ExecEvent.placeOrder req ∈
              (closePosition (convertMarketToCoin payload.market) pos env.closeAttempts).events →
            req.reduce_only = true) ∧
          (∀ req, ExecEvent.placeOrder req ∈ tailEvents → req.reduce_only = false) ∧
          (∃ req, ExecEvent.placeOrder req ∈
            (closePosition (convertMarketToCoin payload.market) pos env.closeAttempts).events) ∧
          (env.leverageResult = Except.ok () →
            ∃ req, ExecEvent.placeOrder req ∈ tailEvents)) := by
  rcases hcur : getCurrentPosition (convertMarketToCoin payload.market) env.assetPositions
    with _ | pos
  · rw [hcur] at hrev
    rcases hrev with h | h
    · exact absurd h (determineAction_none_not_reverse payload.position).1
    · exact absurd h (determineAction_none_not_reverse payload.position).2
  · rw [hcur] at hrev
    rcases hrev with h | h
    · refine ⟨pos, rfl, ?_, ?_⟩
      · intro e he
        have hx : executeTradeFromWebhook payload env =
            { events := ExecEvent.fetchPosition (convertMarketToCoin payload.market) ::
                (closePosition (convertMarketToCoin payload.market) pos env.closeAttempts).events ++
                (if env.hasDiscordWebhook then [ExecEvent.notifyError e] else []),
              result := Except.error e } := by
          simp [executeTradeFromWebhook, hcur, h, he]
        refine ⟨by rw [hx], ?_⟩
        intro req hreq
        rw [hx] at hreq
        dsimp only at hreq
        simp only [List.mem_cons, List.mem_append] at hreq
        rcases hreq with (hreq | hreq) | hreq
        · simp at hreq
        · exact closeLoop_order_reduce_only _ _ _ _ _ _ hreq
        · by_cases hD : env.hasDiscordWebhook <;> simp [hD] at hreq
      · intro hok
        rcases htl : (executeLong (convertMarketToCoin payload.market)
            payload.sizeByLeverage env).1.result with el | v
        · have hx : executeTradeFromWebhook payload env =
              { events := ExecEvent.fetchPosition (convertMarketToCoin payload.market) ::
                  (closePosition (convertMarketToCoin payload.market) pos
                    env.closeAttempts).events ++
                  ((executeLong (convertMarketToCoin payload.market)
                      payload.sizeByLeverage env).1.events ++
                    (if env.hasDiscordWebhook then [ExecEvent.notifyError el] else [])),
                result := Except.error el } := by
            simp [executeTradeFromWebhook, hcur, h, hok, htl]
          refine ⟨(executeLong (convertMarketToCoin payload.market)
              payload.sizeByLeverage env).1.events ++
              (if env.hasDiscordWebhook then [ExecEvent.notifyError el] else []),
            by rw [hx], ?_, ?_, ?_, ?_⟩
          · intro req hreq
            exact closeLoop_order_reduce_only _ _ _ _ _ _ hreq
          · intro req hreq
            simp only [List.mem_append] at hreq
            rcases hreq with hreq | hreq
            · exact executeLong_order_not_reduce_only _ _ _ _ hreq
            · by_cases hD : env.hasDiscordWebhook <;> simp [hD] at hreq
          · exact closeLoop_has_order (convertMarketToCoin payload.market) pos
              env.closeAttempts 0 2
          · intro hlev
            obtain ⟨req, hreq⟩ := executeLong_has_order (convertMarketToCoin payload.market)
              payload.sizeByLeverage env hlev
            exact ⟨req, List.mem_append_left _ hreq⟩
        · have hx : executeTradeFromWebhook payload env =
              { events := ExecEvent.fetchPosition (convertMarketToCoin payload.market) ::
                  (closePosition (convertMarketToCoin payload.market) pos
                    env.closeAttempts).events ++
                  ((executeLong (convertMarketToCoin payload.market)
                      payload.sizeByLeverage env).1.events ++
                    (if env.hasDiscordWebhook then
                      [ExecEvent.notifyTrade (executeLong (convertMarketToCoin payload.market)
                        payload.sizeByLeverage env).2]
                    else [])),
                result := Except.ok () } := by
            simp [executeTradeFromWebhook, hcur, h, hok, htl]
          refine ⟨(executeLong (convertMarketToCoin payload.market)
              payload.sizeByLeverage env).1.events ++
              (if env.hasDiscordWebhook then
                [ExecEvent.notifyTrade (executeLong (convertMarketToCoin payload.market)
                  payload.sizeByLeverage env).2]
              else []),
            by rw [hx], ?_, ?_, ?_, ?_⟩
          · intro req hreq
            exact closeLoop_order_reduce_only _ _ _ _ _ _ hreq
          · intro req hreq
            simp only [List.mem_append] at hreq
            rcases hreq with hreq | hreq
            · exact executeLong_order_not_reduce_only _ _ _ _ hreq
            · by_cases hD : env.hasDiscordWebhook <;> simp [hD] at hreq
          · exact closeLoop_has_order (convertMarketToCoin payload.market) pos
              env.closeAttempts 0 2
          · intro hlev
            obtain ⟨req, hreq⟩ := executeLong_has_order (convertMarketToCoin payload.market)
              payload.sizeByLeverage env hlev
            exact ⟨req, List.mem_append_left _ hreq⟩
    · refine ⟨pos, rfl, ?_, ?_⟩
      · intro e he
        have hx : executeTradeFromWebhook payload env =
            { events := ExecEvent.fetchPosition (convertMarketToCoin payload.market) ::
                (closePosition (convertMarketToCoin payload.market) pos env.closeAttempts).events ++
                (if env.hasDiscordWebhook then [ExecEvent.notifyError e] else []),
              result := Except.error e } := by
          simp [executeTradeFromWebhook, hcur, h, he]
        refine ⟨by rw [hx], ?_⟩
        intro req hreq
        rw [hx] at hreq
        dsimp only at hreq
        simp only [List.mem_cons, List.mem_append] at hreq
        rcases hreq with (hreq | hreq) | hreq
        · simp at hreq
        · exact closeLoop_order_reduce_only _ _ _ _ _ _ hreq
        · by_cases hD : env.hasDiscordWebhook <;> simp [hD] at hreq
      · intro hok
        rcases htl : (executeShort (convertMarketToCoin payload.market)
            payload.sizeByLeverage env).1.result with el | v
        · have hx : executeTradeFromWebhook payload env =
              { events := ExecEvent.fetchPosition (convertMarketToCoin payload.market) ::
                  (closePosition (convertMarketToCoin payload.market) pos
                    env.closeAttempts).events ++
                  ((executeShort (convertMarketToCoin payload.market)
                      payload.sizeByLeverage env).1.events ++
                    (if env.hasDiscordWebhook then [ExecEvent.notifyError el] else [])),
                result := Except.error el } := by
            simp [executeTradeFromWebhook, hcur, h, hok, htl]
          refine ⟨(executeShort (convertMarketToCoin payload.market)
              payload.sizeByLeverage env).1.events ++
              (if env.hasDiscordWebhook then [ExecEvent.notifyError el] else []),
            by rw [hx], ?_, ?_, ?_, ?_⟩
          · intro req hreq
            exact closeLoop_order_reduce_only _ _ _ _ _ _ hreq
          · intro req hreq
            simp only [List.mem_append] at hreq
            rcases hreq with hreq | hreq
            · exact executeShort_order_not_reduce_only _ _ _ _ hreq
            · by_cases hD : env.hasDiscordWebhook <;> simp [hD] at hreq
          · exact closeLoop_has_order (convertMarketToCoin payload.market) pos
              env.closeAttempts 0 2
          · intro hlev
            obtain ⟨req, hreq⟩ := executeShort_has_order (convertMarketToCoin payload.market)
              payload.sizeByLeverage env hlev
            exact ⟨req, List.mem_append_left _ hreq⟩
        · have hx : executeTradeFromWebhook payload env =
              { events := ExecEvent.fetchPosition (convertMarketToCoin payload.market) ::
                  (closePosition (convertMarketToCoin payload.market) pos
                    env.closeAttempts).events ++
                  ((executeShort (convertMarketToCoin payload.market)
                      payload.sizeByLeverage env).1.events ++
                    (if env.hasDiscordWebhook then
                      [ExecEvent.notifyTrade (executeShort (convertMarketToCoin payload.market)
                        payload.sizeByLeverage env).2]
                    else [])),
                result := Except.ok () } := by
            simp [executeTradeFromWebhook, hcur, h, hok, htl]
          refine ⟨(executeShort (convertMarketToCoin payload.market)
              payload.sizeByLeverage env).1.events ++
              (if env.hasDiscordWebhook then
                [ExecEvent.notifyTrade (executeShort (convertMarketToCoin payload.market)
                  payload.sizeByLeverage env).2]
              else []),
            by rw [hx], ?_, ?_, ?_, ?_⟩
          · intro req hreq
            exact closeLoop_order_reduce_only _ _ _ _ _ _ hreq
          · intro req hreq
            simp only [List.mem_append] at hreq
            rcases hreq with hreq | hreq
            · exact executeShort_order_not_reduce_only _ _ _ _ hreq
            · by_cases hD : env.hasDiscordWebhook <;> simp [hD] at hreq
          · exact closeLoop_has_order (convertMarketToCoin payload.market) pos
              env.closeAttempts 0 2
          · intro hlev
            obtain ⟨req, hreq⟩ := executeShort_has_order (convertMarketToCoin payload.market)
              payload.sizeByLeverage env hlev
            exact ⟨req, List.mem_append_left _ hreq⟩

/-- Witness for C4: a long signal against a held SHORT position decides a
reversal, and the theorem applies. -/
theorem reversal_close_then_open_witness :
    determineAction reversePayload.position
      (getCurrentPosition (convertMarketToCoin reversePayload.market)
        reverseOrchEnv.assetPositions) = "REVERSE_TO_LONG" ∧
    ∃ pos, getCurrentPosition (convertMarketToCoin reversePayload.market)
        reverseOrchEnv.assetPositions = some pos := by
  have hcoin : convertMarketToCoin reversePayload.market = "BTC-PERP" := by decide
  have h1 : jsReplace "BTC-PERP" "-PERP" "" = "BTC" := by decide
  have hcur : getCurrentPosition (convertMarketToCoin reversePayload.market)
      reverseOrchEnv.assetPositions = some ⟨"BTC", Side.SHORT, 1, 100, 0, 2⟩ := by
    rw [hcoin]
    simp only [reverseOrchEnv, getCurrentPosition, h1]
    rw [List.find?_cons_of_pos _ (by decide)]
    norm_num
  have hd : determineAction reversePayload.position
      (getCurrentPosition (convertMarketToCoin reversePayload.market)
        reverseOrchEnv.assetPositions) = "REVERSE_TO_LONG" := by
    rw [hcur]
    decide
  obtain ⟨pos, hpos, -, -⟩ :=
    reversal_close_then_open reversePayload reverseOrchEnv (Or.inl hd)
  exact ⟨hd, pos, hpos⟩

end HyperliquidBot
